import Mathlib

/-!
Shallow embedding of the client-identity resolution core of the umami
repository: `src/lib/ip.ts` (IP extraction from request headers, port
stripping) and `src/lib/detect.ts` (device classification, geolocation
tiers, IP blocklisting), together with executable models of the external
collaborators the spec declares out of scope (the `ipaddr.js` parsing
interface, the user-agent parser, the maxmind database handle and the
localhost oracle, which enter as explicit parameters).

JavaScript strings are modelled by Lean `String` (the sources only ever
manipulate ASCII header names and address literals); JS `null`/`undefined`
results are modelled by `Option`; a thrown exception is modelled by
`Except.error`.
-/

namespace Umami

/-! ### JavaScript string primitives used by the sources

All primitives are written over the character list of the string so that a
concrete application evaluates inside the kernel. -/

/-- JS `String.prototype.trim` (ASCII whitespace, which covers every input the
sources feed it: comma-separated header values and blocklist entries). -/
def jsTrim (s : String) : String :=
  ⟨(((s.data.dropWhile Char.isWhitespace).reverse).dropWhile Char.isWhitespace).reverse⟩

/-- JS `String.prototype.split` with a one-character separator: the list of
maximal separator-free chunks, `[[]]` on the empty string. -/
def splitOnChar (sep : Char) : List Char → List (List Char)
  | [] => [[]]
  | c :: cs =>
    let r := splitOnChar sep cs
    if c = sep then [] :: r
    else
      match r with
      | x :: xs => (c :: x) :: xs
      | [] => [[c]]

/-- JS `String.prototype.split` on a string, chunk for chunk. -/
def strSplit (s : String) (sep : Char) : List String :=
  (splitOnChar sep s.data).map (fun l => ⟨l⟩)

/-- JS `String.prototype.startsWith`. -/
def strStartsWith (s p : String) : Bool :=
  p.data.isPrefixOf s.data

/-- JS `String.prototype.includes` for a one-character needle. -/
def strContainsChar (s : String) (c : Char) : Bool :=
  s.data.contains c

/-- Index of the first occurrence of a character in a character list;
`none` models JS `indexOf` returning `-1`. -/
def idxOf? : List Char → Char → Option Nat
  | [], _ => none
  | c :: cs, t => if c = t then some 0 else (idxOf? cs t).map (· + 1)

/-- JS `String.prototype.slice(0, n)`. -/
def strTake (s : String) (n : Nat) : String := ⟨s.data.take n⟩

/-- JS `String.prototype.lastIndexOf` for a single character;
`none` models `-1`. -/
def lastIdxOf? (s : String) (c : Char) : Option Nat :=
  (idxOf? s.data.reverse c).map (fun i => s.data.length - 1 - i)

/-- Decimal value of a digit list, as read left to right. -/
def digitsVal (l : List Char) : Nat :=
  l.foldl (fun a c => a * 10 + (c.toNat - 48)) 0

/-- JS numeric coercion `+s` of a string, as used on the screen-width
component: `none` models `NaN`.  The model covers the whitespace-trimmed
empty string (`0`) and optionally signed decimal literals with an optional
fractional part, which is the `"<width>x<height>"` input space of the
source; hexadecimal/scientific literals and `Infinity` are outside the
modelled fragment. -/
def jsToNumber (s : String) : Option (Int × Nat) :=
  let t := (jsTrim s).data
  if t = [] then some (0, 0)
  else
    let sgn : Int := if t.head? = some '-' then -1 else 1
    let t1 := if t.head? = some '-' ∨ t.head? = some '+' then t.drop 1 else t
    let intPart := t1.takeWhile Char.isDigit
    let rest := t1.drop intPart.length
    match rest with
    | [] => if intPart = [] then none else some (sgn * (digitsVal intPart : Int), 0)
    | '.' :: r2 =>
      let fracPart := r2.takeWhile Char.isDigit
      let rest2 := r2.drop fracPart.length
      if rest2 = [] ∧ (intPart ≠ [] ∨ fracPart ≠ []) then
        some (sgn * ((digitsVal intPart : Int) * (10 : Int) ^ fracPart.length +
          (digitsVal fracPart : Int)), fracPart.length)
      else none
    | _ => none

/-- Comparison `+width <= bound` of the source: a scaled decimal
`(n, k)` stands for the exact value `n / 10 ^ k`, and `NaN` (`none`)
compares false. -/
def numLe (x : Option (Int × Nat)) (bound : Int) : Bool :=
  match x with
  | some (n, k) => decide (n ≤ bound * (10 : Int) ^ k)
  | none => false

/-! ### `src/lib/ip.ts` -/

/-- A request header map: `Headers.get`, with `none` for an absent header. -/
def HeadersT := String → Option String

/-- The `IP_ADDRESS_HEADERS` precedence list of `ip.ts`, in source order. -/
def IP_ADDRESS_HEADERS : List String :=
  ["true-client-ip",
   "cf-connecting-ip",
   "fastly-client-ip",
   "x-nf-client-connection-ip",
   "do-connecting-ip",
   "x-forwarded-for",
   "x-appengine-user-ip",
   "x-real-ip",
   "forwarded",
   "x-client-ip",
   "x-cluster-client-ip",
   "x-forwarded",
   "x-original-forwarded-for"]

/-- The `isPrivate` prefix test of `getIpAddress`, clause for clause. -/
def isPrivateIp (s : String) : Bool :=
  strStartsWith s "10." ||
  strStartsWith s "172.16." ||
  strStartsWith s "172.17." ||
  strStartsWith s "172.18." ||
  strStartsWith s "172.19." ||
  strStartsWith s "172.20." ||
  strStartsWith s "172.21." ||
  strStartsWith s "172.22." ||
  strStartsWith s "172.23." ||
  strStartsWith s "172.24." ||
  strStartsWith s "172.25." ||
  strStartsWith s "172.26." ||
  strStartsWith s "172.27." ||
  strStartsWith s "172.28." ||
  strStartsWith s "172.29." ||
  strStartsWith s "172.30." ||
  strStartsWith s "172.31." ||
  strStartsWith s "192.168." ||
  strStartsWith s "127." ||
  s == "::1" ||
  strStartsWith s "169.254."

/-- Character class `[0-9a-fA-F:.]` of the `forwarded` header regex. -/
def fwdClassChar (c : Char) : Bool :=
  c.isDigit || ('a' ≤ c ∧ c ≤ 'f') || ('A' ≤ c ∧ c ≤ 'F') || c = ':' || c = '.'

/-- The trailing `\]?` of the `forwarded` regex: consume a closing bracket
when one is next. -/
def closeBr (cs : List Char) : List Char :=
  if cs.head? = some ']' then [']'] else []

/-- Attempt of the regex tail at one position: the characters right after a
literal occurrence of `for=` are matched against the capture group
`\[?[0-9a-fA-F:.]+\]?` (greedy optional bracket, then one or more class
characters, then a greedy optional closing bracket). -/
def fwdCapture (cs : List Char) : Option (List Char) :=
  if cs.head? = some '[' then
    if cs.tail.takeWhile fwdClassChar = [] then none
    else
      some ('[' :: cs.tail.takeWhile fwdClassChar ++
        closeBr (cs.tail.drop (cs.tail.takeWhile fwdClassChar).length))
  else
    if cs.takeWhile fwdClassChar = [] then none
    else
      some (cs.takeWhile fwdClassChar ++
        closeBr (cs.drop (cs.takeWhile fwdClassChar).length))

/-- Leftmost-match scan of the JS regex engine over the subject string:
the pattern's literal head anchors every attempt at an occurrence of
`for=`, and a failed attempt resumes at the next position. -/
def fwdScan : List Char → Option (List Char)
  | [] => none
  | c :: rest =>
    if c = 'f' ∧ rest.take 3 = ['o', 'r', '='] then
      match fwdCapture (rest.drop 3) with
      | some cap => some cap
      | none => fwdScan rest
    else fwdScan rest

/-- Capture group of `value.match(/for=(\[?[0-9a-fA-F:.]+\]?)/)`,
`none` when the regex does not match. -/
def forwardedFor (s : String) : Option String :=
  (fwdScan s.data).map (fun l => ⟨l⟩)

/-- First comma-separated element of an `x-forwarded-for` value, trimmed:
`value.split(',')?.[0]?.trim()`. -/
def xffFirst (v : String) : String :=
  jsTrim ((strSplit v ',').headD "")

/-- Structured extraction applied inside the precedence loop of
`getIpAddress`: `x-forwarded-for` takes the first list element,
`forwarded` takes the regex capture when it matches, anything else is
used verbatim. -/
def extractIp (name value : String) : String :=
  if name = "x-forwarded-for" then xffFirst value
  else if name = "forwarded" then
    match forwardedFor value with
    | some m => m
    | none => value
  else value

/-- The header-precedence loop of `getIpAddress`: skip absent or empty
headers, skip an empty extraction, skip private addresses, and stop at the
first public candidate. -/
def ipLoop (h : HeadersT) : List String → Option String
  | [] => none
  | name :: rest =>
    match h name with
    | none => ipLoop h rest
    | some v =>
      if v = "" then ipLoop h rest
      else
        let e := extractIp name v
        if e = "" then ipLoop h rest
        else if isPrivateIp e then ipLoop h rest
        else some e

/-- Environment consumed by `getIpAddress`: the `CLIENT_IP_HEADER`
override, with `none` for an unset variable. -/
structure IpEnv where
  clientIpHeader : Option String

/-- Override-branch extraction of `getIpAddress`: the `x-forwarded-for`
first element with fallback to the raw value when it trims to empty
(the source's `ip.split(',')?.[0]?.trim() || ip`), the `forwarded`
capture when the regex matches, and the raw value otherwise. -/
def customExtract (ch v : String) : String :=
  if ch = "x-forwarded-for" then
    (let e := xffFirst v
     if e = "" then v else e)
  else if ch = "forwarded" then
    (match forwardedFor v with
     | some m => m
     | none => v)
  else v

/-- Precedence-loop selection followed by the source's final
`return selectedIp || null` coercion. -/
def ipSelect (h : HeadersT) : Option String :=
  match ipLoop h IP_ADDRESS_HEADERS with
  | some s => if s = "" then none else some s
  | none => none

/-- The `getIpAddress` of `ip.ts`.  The override branch fires when
`CLIENT_IP_HEADER` is set (JS truthiness: non-empty) and the request
carries a truthy value for it; every falsy case falls through to the
precedence-loop selection.  The debug tracing of the source only logs and
is omitted. -/
def getIpAddress (env : IpEnv) (h : HeadersT) : Option String :=
  match env.clientIpHeader with
  | some ch =>
    if ch = "" then ipSelect h
    else
      match h ch with
      | some v => if v = "" then ipSelect h else some (customExtract ch v)
      | none => ipSelect h
  | none => ipSelect h

/-- Character class of the hostname regex `[a-zA-Z0-9.-]` in `stripPort`. -/
def hostChar (c : Char) : Bool :=
  c.isAlphanum || c = '.' || c = '-'

/-- Test of the anchored regex `/^[a-zA-Z0-9.-]+$/`. -/
def hostLike (s : String) : Bool :=
  !s.data.isEmpty && s.data.all hostChar

/-- The `stripPort` of `ip.ts`.  A string starting with `[` returns the
slice through the first `]` when one exists; otherwise (including the
bracket-without-close case, which falls through in the source) the last
`:` is located and everything before it is returned when the string
contains a `.` or the pre-colon part is hostname-like. -/
def stripPort (ip : String) : String :=
  match (if strStartsWith ip "[" then idxOf? ip.data ']' else none) with
  | some endBracket => strTake ip (endBracket + 1)
  | none =>
    match lastIdxOf? ip ':' with
    | some idx =>
      if strContainsChar ip '.' || hostLike (strTake ip idx) then strTake ip idx
      else ip
    | none => ip

/-! ### Model of the external `ipaddr.js` interface

The spec declares transport-level address parsing and CIDR arithmetic out
of scope, consumed as `parseAddress`, `parseCIDR`, `addressInRange`.  The
model below implements that interface for canonical IPv4 dotted-quad
strings, the address family every configuration example of the spec uses:
an address is its four octets, anything not a canonical dotted quad is a
parse error (the library throws), and a failed `parseCIDR` carries the
library's collapse error message.  All modelled addresses are IPv4, so the
source's address-family (`kind`) equality guard holds identically. -/

namespace ipaddr

/-- One decimal octet: non-empty, digits only, no redundant leading zero,
value at most 255. -/
def parseOctet (s : String) : Option Nat :=
  if s.data ≠ [] ∧ s.data.all Char.isDigit ∧ (s.data.head? = some '0' → s.data.length = 1) then
    (if digitsVal s.data ≤ 255 then some (digitsVal s.data) else none)
  else none

/-- The `ipaddr.parse` entry point, on the modelled IPv4 fragment: four
dot-separated octets, or the library's thrown error. -/
def parse (s : String) : Except String (List Nat) :=
  match (strSplit s '.').mapM parseOctet with
  | some parts =>
    if parts.length = 4 then .ok parts
    else .error "ipaddr: the address has neither IPv6 nor IPv4 format"
  | none => .error "ipaddr: the address has neither IPv6 nor IPv4 format"

/-- The `ipaddr.parseCIDR` entry point: split at the last `/` as the
library regex `^(.+)\/(\d+)$` does, require a digits-only length of at
most 32 and a parseable address, or throw. -/
def parseCIDR (s : String) : Except String (List Nat × Nat) :=
  match lastIdxOf? s '/' with
  | some i =>
    let addrStr := strTake s i
    let maskStr : String := ⟨s.data.drop (i + 1)⟩
    if addrStr ≠ "" ∧ maskStr.data ≠ [] ∧ maskStr.data.all Char.isDigit then
      match parse addrStr with
      | .ok addr =>
        if digitsVal maskStr.data ≤ 32 then .ok (addr, digitsVal maskStr.data)
        else .error "ipaddr: the address has neither IPv6 nor IPv4 CIDR format"
      | .error _ => .error "ipaddr: the address has neither IPv6 nor IPv4 CIDR format"
    else .error "ipaddr: the address has neither IPv6 nor IPv4 CIDR format"
  | none => .error "ipaddr: the address has neither IPv6 nor IPv4 CIDR format"

/-- The 32-bit value of an octet list. -/
def v4val (parts : List Nat) : Nat :=
  parts.foldl (fun a b => a * 256 + b) 0

/-- The `addr.match(range)` range-membership test: the leading
`range.2` bits of both addresses agree. -/
def matchCIDR (addr : List Nat) (range : List Nat × Nat) : Bool :=
  decide (v4val addr / 2 ^ (32 - range.2) = v4val range.1 / 2 ^ (32 - range.2))

end ipaddr

/-! ### `src/lib/detect.ts` -/

/-- One rule test of the `ips.find` callback in `hasBlockedIp`: an exact
string match blocks; otherwise a rule whose first `/` sits at a positive
index is evaluated as a CIDR range against the parsed client address,
and either parse can throw.  (Both modelled addresses are IPv4, so the
source's `addr.kind() === range[0].kind()` guard is identically true.) -/
def ruleMatch (clientIp rule : String) : Except String Bool :=
  if rule = clientIp then .ok true
  else
    match idxOf? rule.data '/' with
    | some i =>
      if 0 < i then do
        let addr ← ipaddr.parse clientIp
        let range ← ipaddr.parseCIDR rule
        if ipaddr.matchCIDR addr range then .ok true else .ok false
      else .ok false
    | none => .ok false

/-- JS `Array.prototype.find` under a fallible callback: the first element
whose test is true, `none` when every test is false, and the first thrown
error propagates. -/
def jsFindM (p : String → Except String Bool) : List String → Except String (Option String)
  | [] => .ok none
  | x :: xs =>
    match p x with
    | .ok true => .ok (some x)
    | .ok false => jsFindM p xs
    | .error e => .error e

/-- The `hasBlockedIp` of `detect.ts`: when `IGNORE_IP` is truthy, split it
on commas, trim each entry, and return the result of `ips.find` (the
matching rule string, or `undefined`); otherwise `false`.  Both falsy
returns are collapsed to `none`, the truthy return is `some rule`. -/
def hasBlockedIp (ignoreIps : Option String) (clientIp : String) : Except String (Option String) :=
  match ignoreIps with
  | some s =>
    if s = "" then .ok none
    else jsFindM (ruleMatch clientIp) ((strSplit s ',').map jsTrim)
  | none => .ok none

/-- JS truthiness of the `hasBlockedIp` return value, which callers use as
the block decision. -/
def hasBlockedIpB (ignoreIps : Option String) (clientIp : String) : Except String Bool :=
  (hasBlockedIp ignoreIps clientIp).map
    (fun r =>
      match r with
      | some s => s != ""
      | none => false)

/-- The `device?.type || 'desktop'` default of `getDevice`: the parsed
device type, with a falsy parse replaced by `"desktop"`. -/
def deviceType (parseDeviceType : String → Option String) (userAgent : String) : String :=
  match parseDeviceType userAgent with
  | some t => if t = "" then "desktop" else t
  | none => "desktop"

/-- The `getDevice` of `detect.ts`, parameterised by the external
user-agent parser (`UAParser(...).device?.type`, `none` when the parser
yields no device type).  The screen width is the part before the first
`x`, and a desktop type with a truthy screen and coerced width at most
1920 is reclassified as `"laptop"`. -/
def getDevice (parseDeviceType : String → Option String) (userAgent screen : String) : String :=
  if deviceType parseDeviceType userAgent = "desktop" ∧ screen ≠ "" ∧
      numLe (jsToNumber ((strSplit screen 'x').headD "")) 1920 = true then "laptop"
  else deviceType parseDeviceType userAgent

/-- The `getRegionCode` of `detect.ts`: `undefined` when either argument
is falsy, the region verbatim when it already contains `-`, and the
`country-region` compound otherwise. -/
def getRegionCode (country region : Option String) : Option String :=
  match country, region with
  | some c, some r =>
    if c = "" ∨ r = "" then none
    else if strContainsChar r '-' then some r
    else some (c ++ "-" ++ r)
  | _, _ => none

/-- A geolocation database record, with the fields `getLocation` reads
from a maxmind hit: `country.iso_code`, `registered_country.iso_code`,
`subdivisions[0].iso_code` and `city.names.en`. -/
structure GeoRecord where
  countryIso : Option String
  registeredCountryIso : Option String
  subdivision0Iso : Option String
  cityNameEn : Option String

/-- An open database handle: `reader.get`, with `none` for a miss. -/
def DB := String → Option GeoRecord

/-- The location record returned by both tiers of `getLocation`. -/
structure Location where
  country : Option String
  region : Option String
  city : Option String

/-- External collaborators of `getLocation`, per the spec's out-of-scope
interfaces: the `is-localhost-ip` oracle, `fs.access` (does the database
file exist), `maxmind.open` (`none` when opening throws) and the Node
`Buffer` latin1-to-utf8 transcoding used by `decodeHeader`. -/
structure Ext where
  isLocalhost : String → Bool
  fsAccess : String → Bool
  maxmindOpen : String → Option DB
  latin1ToUtf8 : String → String

/-- Environment read by `getLocation`: the `SKIP_LOCATION_HEADERS` flag,
the `GEOLITE_DB_PATH` override and the process working directory that the
default path is resolved against.  `DEBUG_GEO` only logs and is omitted. -/
structure GeoEnv where
  skipLocationHeaders : Bool
  geoliteDbPath : Option String
  cwd : String

/-- Observable side effects of one `getLocation` call: the header names
read through `headers.get`, the file paths probed with `fs.access`, the
paths passed to `maxmind.open`, and the addresses queried on the handle. -/
structure GeoEffects where
  headerReads : List String
  fsChecks : List String
  openCalls : List String
  lookups : List String

/-- The empty effect record. -/
def noEffects : GeoEffects := ⟨[], [], [], []⟩

/-- One provider header triple of the `PROVIDER_HEADERS` table. -/
structure Provider where
  countryHeader : String
  regionHeader : String
  cityHeader : String

/-- The `PROVIDER_HEADERS` table of `detect.ts`, in source order:
Cloudflare, then Vercel, then CloudFront. -/
def PROVIDER_HEADERS : List Provider :=
  [⟨"cf-ipcountry", "cf-region-code", "cf-ipcity"⟩,
   ⟨"x-vercel-ip-country", "x-vercel-ip-country-region", "x-vercel-ip-city"⟩,
   ⟨"cloudfront-viewer-country", "cloudfront-viewer-country-region", "cloudfront-viewer-city"⟩]

/-- The `decodeHeader` of `detect.ts`: a missing value passes through, a
present one is transcoded from latin1 bytes to utf8 text. -/
def decodeHeader (ext : Ext) : Option String → Option String :=
  Option.map ext.latin1ToUtf8

/-- The provider-header loop of `getLocation`: the first provider whose
country header is truthy supplies the location; the header names read on
the way are recorded in order. -/
def providerLoop (ext : Ext) (h : HeadersT) : List Provider → Option Location × List String
  | [] => (none, [])
  | p :: rest =>
    match h p.countryHeader with
    | some c =>
      if c = "" then
        let r := providerLoop ext h rest
        (r.1, p.countryHeader :: r.2)
      else
        let country := decodeHeader ext (some c)
        let region := decodeHeader ext (h p.regionHeader)
        let city := decodeHeader ext (h p.cityHeader)
        (some ⟨country, getRegionCode country region, city⟩,
         [p.countryHeader, p.regionHeader, p.cityHeader])
    | none =>
      let r := providerLoop ext h rest
      (r.1, p.countryHeader :: r.2)

/-- The database path `getLocation` opens: the truthy `GEOLITE_DB_PATH`
override, or `path.resolve(path.join(cwd, 'geo'), 'GeoLite2-City.mmdb')`. -/
def defaultDbPath (env : GeoEnv) : String :=
  match env.geoliteDbPath with
  | some p => if p = "" then env.cwd ++ "/geo/GeoLite2-City.mmdb" else p
  | none => env.cwd ++ "/geo/GeoLite2-City.mmdb"

/-- The lookup step of the database tier: normalize the address with
`stripPort`, query the open handle, and on a hit derive the country
(primary ISO code, falling back to the registered country), the compound
region and the English city name. -/
def dbQuery (db : DB) (ip : String) (eff : GeoEffects) : Option Location × Option DB × GeoEffects :=
  match db (stripPort ip) with
  | some rec =>
    (some ⟨rec.countryIso.orElse (fun _ => rec.registeredCountryIso),
       getRegionCode (rec.countryIso.orElse (fun _ => rec.registeredCountryIso))
         rec.subdivision0Iso,
       rec.cityNameEn⟩,
     some db,
     ⟨eff.headerReads, eff.fsChecks, eff.openCalls, eff.lookups ++ [stripPort ip]⟩)
  | none =>
    (none, some db,
     ⟨eff.headerReads, eff.fsChecks, eff.openCalls, eff.lookups ++ [stripPort ip]⟩)

/-- The database tier of `getLocation`: reuse an already open handle, or
probe the database file and open it, resolving a missing or unopenable
file as `null` while leaving the handle state unset. -/
def dbTier (ext : Ext) (env : GeoEnv) (st : Option DB) (ip : String) (reads : List String) :
    Option Location × Option DB × GeoEffects :=
  match st with
  | some db => dbQuery db ip ⟨reads, [], [], []⟩
  | none =>
    if ext.fsAccess (defaultDbPath env) then
      match ext.maxmindOpen (defaultDbPath env) with
      | some db => dbQuery db ip ⟨reads, [defaultDbPath env], [defaultDbPath env], []⟩
      | none => (none, none, ⟨reads, [defaultDbPath env], [defaultDbPath env], []⟩)
    else (none, none, ⟨reads, [defaultDbPath env], [], []⟩)

/-- The `getLocation` of `detect.ts`, with the process-wide maxmind handle
passed in and returned explicitly and the performed I/O recorded: a falsy
or local address returns `null` at once; the provider-header tier runs
only when the IP is not payload-supplied and `SKIP_LOCATION_HEADERS` is
unset; otherwise the database tier resolves the address. -/
def getLocation (ext : Ext) (env : GeoEnv) (st : Option DB) (ip : String) (h : HeadersT)
    (hasPayloadIP : Bool) : Option Location × Option DB × GeoEffects :=
  if ip = "" ∨ ext.isLocalhost ip = true then (none, st, noEffects)
  else
    match
      (if hasPayloadIP = false ∧ env.skipLocationHeaders = false then
        providerLoop ext h PROVIDER_HEADERS
      else (none, [])) with
    | (some loc, reads) => (some loc, st, ⟨reads, [], [], []⟩)
    | (none, reads) => dbTier ext env st ip reads

/-! ### Concrete instances used by witness theorems -/

/-- Environment with `CLIENT_IP_HEADER` unset. -/
def envNoOverride : IpEnv := ⟨none⟩

/-- A request carrying exactly one header. -/
def oneHeader (name v : String) : HeadersT :=
  fun n => if n = name then some v else none

/-- Concrete external collaborators: loopback detection of `127.0.0.1`
only, no database file on disk, every open fails, identity transcoding. -/
def extNoDb : Ext :=
  ⟨fun s => s == "127.0.0.1", fun _ => false, fun _ => none, fun s => s⟩

/-- Concrete geolocation environment: provider headers enabled, default
database path under `/app`. -/
def envGeo : GeoEnv := ⟨false, none, "/app"⟩

/-- The tail of the precedence list after `x-forwarded-for`. -/
def HEADERS_AFTER_XFF : List String :=
  ["x-appengine-user-ip",
   "x-real-ip",
   "forwarded",
   "x-client-ip",
   "x-cluster-client-ip",
   "x-forwarded",
   "x-original-forwarded-for"]

/-! ### Shared lemmas -/

/-- `Array.prototype.find` yields `undefined` when every test is false. -/
theorem jsFindM_all_false {p : String → Except String Bool} :
    ∀ {l : List String}, (∀ x ∈ l, p x = .ok false) → jsFindM p l = .ok none
  | [], _ => rfl
  | x :: xs, hp => by
    have hx := hp x (List.mem_cons_self x xs)
    have hrest : jsFindM p xs = .ok none :=
      jsFindM_all_false (fun y hy => hp y (List.mem_cons_of_mem x hy))
    simp [jsFindM, hx, hrest]

/-- A successful capture attempt of the `forwarded` regex is non-empty. -/
theorem fwdCapture_ne_nil {cs cap} (h : fwdCapture cs = some cap) : cap ≠ [] := by
  unfold fwdCapture at h
  split at h
  · split at h
    · exact absurd h (by simp)
    · injection h with h
      intro hcap
      rw [hcap] at h
      exact List.cons_ne_nil _ _ h
  · split at h
    · exact absurd h (by simp)
    · rename_i hrun
      injection h with h
      intro hcap
      rw [hcap] at h
      exact hrun (List.append_eq_nil.mp h).1

/-- A successful scan of the `forwarded` regex yields a non-empty capture. -/
theorem fwdScan_ne_nil : ∀ {cs cap}, fwdScan cs = some cap → cap ≠ []
  | [], _, h => by simp [fwdScan] at h
  | c :: rest, cap, h => by
    unfold fwdScan at h
    split at h
    · cases hcap : fwdCapture (rest.drop 3) with
      | some l =>
        rw [hcap] at h
        injection h with h
        exact h ▸ fwdCapture_ne_nil hcap
      | none =>
        rw [hcap] at h
        exact fwdScan_ne_nil h
    · exact fwdScan_ne_nil h

/-- A successful `forwarded` extraction is a non-empty string. -/
theorem forwardedFor_ne_empty {s m} (h : forwardedFor s = some m) : m ≠ "" := by
  unfold forwardedFor at h
  cases hs : fwdScan s.data with
  | none => rw [hs] at h; simp at h
  | some cap =>
    rw [hs] at h
    injection h with h
    intro hm
    exact fwdScan_ne_nil hs (by
      have : m.data = cap := by rw [← h]
      rw [hm] at this
      exact this.symm)

/-- The override-branch extraction never returns the empty string on a
truthy input. -/
theorem customExtract_ne_empty {ch v : String} (hv : v ≠ "") : customExtract ch v ≠ "" := by
  unfold customExtract
  split
  · by_cases he : xffFirst v = ""
    · rw [if_pos he]; exact hv
    · rw [if_neg he]; exact he
  · split
    · cases hf : forwardedFor v with
      | some m => simpa [hf] using forwardedFor_ne_empty hf
      | none => simpa [hf] using hv
    · exact hv

/-- The precedence-loop selection is `none` or a non-empty string. -/
theorem ipSelect_shape (h : HeadersT) :
    ipSelect h = none ∨ ∃ s, ipSelect h = some s ∧ s ≠ "" := by
  unfold ipSelect
  cases ipLoop h IP_ADDRESS_HEADERS with
  | none => exact Or.inl rfl
  | some s =>
    by_cases hs : s = ""
    · exact Or.inl (by simp [hs])
    · exact Or.inr ⟨s, by simp [hs], hs⟩

/-- Character membership gives a true `contains`. -/
theorem strContainsChar_of_mem {c : Char} {s : String} (h : c ∈ s.data) :
    strContainsChar s c = true := by
  unfold strContainsChar
  exact List.elem_eq_true_of_mem h

/-- The compound `c ++ "-" ++ r` contains the separator. -/
theorem strContainsChar_compound (c r : String) :
    strContainsChar (c ++ "-" ++ r) '-' = true := by
  obtain ⟨lc⟩ := c
  obtain ⟨lr⟩ := r
  exact strContainsChar_of_mem (by
    show '-' ∈ (lc ++ ['-']) ++ lr
    simp)

/-- A string that contains a character is non-empty. -/
theorem ne_empty_of_contains {c : Char} {s : String} (h : strContainsChar s c = true) :
    s ≠ "" := by
  intro hs
  rw [hs, show strContainsChar "" c = false from rfl] at h
  exact Bool.false_ne_true h

/-- `deviceType` never returns the empty string. -/
theorem deviceType_ne_empty (p : String → Option String) (ua : String) :
    deviceType p ua ≠ "" := by
  unfold deviceType
  cases p ua with
  | none => decide
  | some t =>
    show (if t = "" then "desktop" else t) ≠ ""
    by_cases ht : t = ""
    · rw [if_pos ht]; decide
    · rw [if_neg ht]; exact ht

/-! ### Claim C1 -/

/-- C1: `hasBlockedIp` is not exception-safe.  With blocklist
configuration `bad/cidr` and client IP `203.0.113.5` the CIDR parse of
the malformed rule throws and the error propagates out of the whole
check; likewise a client IP that fails address parsing throws once any
rule carries a `/`.  The claim's required treat-as-non-matching behaviour
does not hold. -/
theorem C1_hasBlockedIp_throws_on_malformed_rule :
    hasBlockedIpB (some "bad/cidr") "203.0.113.5" =
      .error "ipaddr: the address has neither IPv6 nor IPv4 CIDR format" ∧
    hasBlockedIpB (some "10.0.0.0/8") "not-an-ip" =
      .error "ipaddr: the address has neither IPv6 nor IPv4 format" :=
  ⟨rfl, rfl⟩

/-! ### Claim C2 -/

/-- C2: with blocklist configuration `203.0.113.0/24`, `hasBlockedIp` is
true for `203.0.113.77` and false for `203.0.114.1`; it is false when the
configuration is absent, and false whenever every parsed rule of the
configuration evaluates to a no-match for the client IP. -/
theorem C2_hasBlockedIp_cidr_and_no_match :
    hasBlockedIpB (some "203.0.113.0/24") "203.0.113.77" = .ok true ∧
    hasBlockedIpB (some "203.0.113.0/24") "203.0.114.1" = .ok false ∧
    (∀ ip : String, hasBlockedIpB none ip = .ok false) ∧
    (∀ cfg ip : String,
      (∀ r ∈ (strSplit cfg ',').map jsTrim, ruleMatch ip r = .ok false) →
      hasBlockedIpB (some cfg) ip = .ok false) := by
  refine ⟨rfl, rfl, fun ip => rfl, fun cfg ip hr => ?_⟩
  have hstep : hasBlockedIp (some cfg) ip =
      (if cfg = "" then .ok none
       else jsFindM (ruleMatch ip) ((strSplit cfg ',').map jsTrim)) := rfl
  unfold hasBlockedIpB
  rw [hstep]
  by_cases hcfg : cfg = ""
  · rw [if_pos hcfg]; rfl
  · rw [if_neg hcfg, jsFindM_all_false hr]; rfl

/-- Witness for C2: a configuration whose single rule does not match. -/
theorem C2_witness : hasBlockedIpB (some "10.0.0.0/8") "203.0.113.5" = .ok false :=
  C2_hasBlockedIp_cidr_and_no_match.2.2.2 "10.0.0.0/8" "203.0.113.5" (by
    intro r hr
    rw [show (strSplit "10.0.0.0/8" ',').map jsTrim = ["10.0.0.0/8"] from rfl] at hr
    rw [List.mem_singleton.mp hr]
    rfl)

/-! ### Claim C8 -/

/-- C8: the region compound construction yields `US-06` from `US` and
`06`; a subdivision already containing the separator passes through
verbatim, so the construction is idempotent; a falsy country or
subdivision yields `undefined`; and every defined result contains the
separator. -/
theorem C8_getRegionCode_compound :
    getRegionCode (some "US") (some "06") = some "US-06" ∧
    getRegionCode (some "US") (some "US-CA") = some "US-CA" ∧
    (∀ c r : String, c ≠ "" → r ≠ "" → strContainsChar r '-' = true →
      getRegionCode (some c) (some r) = some r) ∧
    (∀ (c x : Option String), getRegionCode c (getRegionCode c x) = getRegionCode c x) ∧
    (∀ x : Option String, getRegionCode none x = none ∧ getRegionCode x none = none) ∧
    (∀ (c r : Option String) (s : String),
      getRegionCode c r = some s → strContainsChar s '-' = true) := by
  have hunf : ∀ c r : String, getRegionCode (some c) (some r) =
      (if c = "" ∨ r = "" then none
       else if strContainsChar r '-' then some r
       else some (c ++ "-" ++ r)) := fun c r => rfl
  have hsep : ∀ (c r : Option String) (s : String),
      getRegionCode c r = some s → strContainsChar s '-' = true := by
    intro c r s h
    rcases c with _ | c <;> rcases r with _ | r
    · exact Option.noConfusion h
    · exact Option.noConfusion h
    · exact Option.noConfusion h
    · rw [hunf c r] at h
      split at h
      · exact Option.noConfusion h
      · split at h
        · rename_i hr
          injection h with h
          exact h ▸ hr
        · injection h with h
          exact h ▸ strContainsChar_compound c r
  refine ⟨rfl, rfl, fun c r hc hr hsepr => ?_, fun c x => ?_, fun x => ?_, hsep⟩
  · rw [hunf c r, if_neg (by simp [hc, hr]), if_pos hsepr]
  · cases hin : getRegionCode c x with
    | none =>
      rcases c with _ | c'
      · rfl
      · rfl
    | some s =>
      have hs : strContainsChar s '-' = true := hsep c x s hin
      have hcs : ∃ c', c = some c' ∧ c' ≠ "" := by
        rcases c with _ | c' <;> rcases x with _ | x'
        · exact Option.noConfusion hin
        · exact Option.noConfusion hin
        · exact Option.noConfusion hin
        · rw [hunf c' x'] at hin
          refine ⟨c', rfl, fun hc => ?_⟩
          rw [if_pos (Or.inl hc)] at hin
          exact Option.noConfusion hin
      obtain ⟨c', hc', hc'ne⟩ := hcs
      subst hc'
      rw [hunf c' s, if_neg (by simp [hc'ne, ne_empty_of_contains hs]), if_pos hs]
  · constructor
    · rfl
    · rcases x with _ | c'
      · rfl
      · rfl

/-- Witness for C8: verbatim pass-through of an already compound
subdivision under a concrete country. -/
theorem C8_witness : getRegionCode (some "DE") (some "DE-BY") = some "DE-BY" :=
  C8_getRegionCode_compound.2.2.1 "DE" "DE-BY" (by decide) (by decide) (by decide)

/-! ### Claim C9 -/

/-- C9: `getDevice` reclassifies a desktop-resolved type as `laptop`
exactly when the screen string is truthy and the coerced width is at most
1920; it never reclassifies a non-desktop type; and it always returns a
non-empty string.  The three spec examples hold with a parser yielding no
device type, as the external parser does on desktop user agents. -/
theorem C9_getDevice_laptop_reclassification :
    getDevice (fun _ => none) "desktopUA" "1366x768" = "laptop" ∧
    getDevice (fun _ => none) "desktopUA" "2560x1440" = "desktop" ∧
    getDevice (fun _ => none) "desktopUA" "" = "desktop" ∧
    (∀ (p : String → Option String) (ua screen : String),
      deviceType p ua = "desktop" →
      (getDevice p ua screen = "laptop" ↔
        screen ≠ "" ∧ numLe (jsToNumber ((strSplit screen 'x').headD "")) 1920 = true)) ∧
    (∀ (p : String → Option String) (ua screen t : String),
      p ua = some t → t ≠ "" → t ≠ "desktop" → getDevice p ua screen = t) ∧
    (∀ (p : String → Option String) (ua screen : String), getDevice p ua screen ≠ "") := by
  refine ⟨rfl, rfl, rfl, fun p ua screen htype => ?_, fun p ua screen t hp ht htd => ?_,
    fun p ua screen => ?_⟩
  · unfold getDevice
    rw [htype]
    by_cases hcond : screen ≠ "" ∧ numLe (jsToNumber ((strSplit screen 'x').headD "")) 1920 = true
    · rw [if_pos ⟨rfl, hcond⟩]
      exact iff_of_true rfl hcond
    · rw [if_neg (fun hc => hcond ⟨hc.2.1, hc.2.2⟩)]
      constructor
      · intro h; exact absurd h (by decide)
      · intro h; exact absurd h hcond
  · have htype : deviceType p ua = t := by
      unfold deviceType
      rw [hp]
      show (if t = "" then "desktop" else t) = t
      rw [if_neg ht]
    unfold getDevice
    rw [htype, if_neg (fun hc => htd hc.1)]
  · unfold getDevice
    split
    · decide
    · exact deviceType_ne_empty p ua

/-- Witness for C9: a non-desktop parse is never reclassified, whatever
the screen. -/
theorem C9_witness : getDevice (fun _ => some "mobile") "phoneUA" "800x600" = "mobile" :=
  C9_getDevice_laptop_reclassification.2.2.2.2.1 (fun _ => some "mobile") "phoneUA"
    "800x600" "mobile" rfl (by decide) (by decide)

/-! ### Claim C3 -/

/-- The first-occurrence index is `none` exactly on lists not containing
the character. -/
theorem idxOf?_eq_none {t : Char} : ∀ {l : List Char}, t ∉ l → idxOf? l t = none
  | [], _ => rfl
  | c :: cs, h => by
    unfold idxOf?
    rw [if_neg (fun (hc : c = t) => h (hc ▸ List.mem_cons_self c cs)),
      idxOf?_eq_none (fun hm => h (List.mem_cons_of_mem c hm))]
    rfl

/-- The first-occurrence index of a present character is found. -/
theorem idxOf?_ne_none_of_mem {t : Char} :
    ∀ {l : List Char}, t ∈ l → idxOf? l t ≠ none
  | [], h => absurd h (List.not_mem_nil t)
  | c :: cs, h => by
    unfold idxOf?
    by_cases hc : c = t
    · rw [if_pos hc]; exact fun hn => Option.noConfusion hn
    · rw [if_neg hc]
      have hm : t ∈ cs := by
        rcases List.mem_cons.mp h with hh | hh
        · exact absurd hh.symm hc
        · exact hh
      cases him : idxOf? cs t with
      | none => exact absurd him (idxOf?_ne_none_of_mem hm)
      | some m => exact fun hn => Option.noConfusion hn

/-- A found first-occurrence index decomposes the list: everything before
it is free of the character. -/
theorem idxOf?_some_decomp {t : Char} :
    ∀ {l : List Char} {n : Nat}, idxOf? l t = some n →
      l.take n ++ t :: l.drop (n + 1) = l ∧ t ∉ l.take n ∧ (l.take n).length = n
  | [], _, h => Option.noConfusion h
  | c :: cs, n, h => by
    unfold idxOf? at h
    by_cases hc : c = t
    · rw [if_pos hc] at h
      injection h with h
      subst h
      subst hc
      exact ⟨rfl, by simp, rfl⟩
    · rw [if_neg hc] at h
      cases him : idxOf? cs t with
      | none => rw [him] at h; exact Option.noConfusion h
      | some m =>
        rw [him] at h
        injection h with h
        subst h
        obtain ⟨hdec, hmem, hlen⟩ := idxOf?_some_decomp him
        refine ⟨?_, ?_, ?_⟩
        · show c :: cs.take m ++ t :: cs.drop (m + 1) = c :: cs
          rw [List.cons_append, hdec]
        · intro hmem2
          rcases List.mem_cons.mp hmem2 with hh | hh
          · exact hc hh.symm
          · exact hmem hh
        · show (c :: cs.take m).length = m + 1
          rw [List.length_cons, hlen]

/-- Counterexample to C3 as stated: `"[10.0.0.1:80"` starts with `[`,
contains no closing bracket, and is not returned unchanged. -/
theorem C3_stripPort_counterexample :
    strStartsWith "[10.0.0.1:80" "[" = true ∧
    idxOf? ("[10.0.0.1:80").data ']' = none ∧
    stripPort "[10.0.0.1:80" ≠ "[10.0.0.1:80" := by
  refine ⟨rfl, rfl, ?_⟩
  rw [show stripPort "[10.0.0.1:80" = "[10.0.0.1" from rfl]
  decide

/-- C3 amended: the three spec examples hold, and a bracketed input with a
closing bracket returns everything through the first `]` inclusive; but an
input starting with `[` and lacking a closing bracket is not returned
unchanged in general — it falls through to the last-colon rule (witness
`"[10.0.0.1:80"`), and is unchanged when that rule does not fire either
(in particular when the input has no colon at all). -/
theorem C3_stripPort_bracket :
    stripPort "[2001:db8::1]:8080" = "[2001:db8::1]" ∧
    stripPort "192.0.2.1:443" = "192.0.2.1" ∧
    stripPort "2001:db8::1" = "2001:db8::1" ∧
    stripPort "[10.0.0.1:80" = "[10.0.0.1" ∧
    (∀ ip : String, strStartsWith ip "[" = true → ']' ∈ ip.data →
      ∃ pre post : List Char, ip.data = pre ++ ']' :: post ∧ ']' ∉ pre ∧
        stripPort ip = ⟨pre ++ [']']⟩) ∧
    (∀ ip : String, ']' ∉ ip.data → ':' ∉ ip.data → stripPort ip = ip) := by
  refine ⟨rfl, rfl, rfl, rfl, fun ip hstart hmem => ?_, fun ip h1 h2 => ?_⟩
  · cases hidx : idxOf? ip.data ']' with
    | none => exact absurd hidx (idxOf?_ne_none_of_mem hmem)
    | some n =>
      obtain ⟨hdec, hpre, hlen⟩ := idxOf?_some_decomp hidx
      refine ⟨ip.data.take n, ip.data.drop (n + 1), hdec.symm, hpre, ?_⟩
      have hstrip : stripPort ip = strTake ip (n + 1) := by
        unfold stripPort
        rw [show (if strStartsWith ip "[" then idxOf? ip.data ']' else none) = some n from by
          rw [if_pos hstart, hidx]]
      rw [hstrip]
      unfold strTake
      have : ip.data.take (n + 1) = ip.data.take n ++ [']'] := by
        conv_lhs => rw [← hdec]
        rw [List.take_append_eq_append_take,
          List.take_of_length_le (by rw [hlen]; exact Nat.le_succ n), hlen,
          show n + 1 - n = 1 by omega]
        rfl
      rw [this]
  · have hbr : (if strStartsWith ip "[" then idxOf? ip.data ']' else none) = none := by
      by_cases hb : strStartsWith ip "[" = true
      · rw [if_pos hb]; exact idxOf?_eq_none h1
      · rw [if_neg hb]
    have hcol : lastIdxOf? ip ':' = none := by
      unfold lastIdxOf?
      rw [idxOf?_eq_none (fun hm => h2 (List.mem_reverse.mp hm))]
      rfl
    unfold stripPort
    rw [hbr, hcol]

/-- Witness for C3: an input with neither bracket close nor colon is
returned unchanged. -/
theorem C3_witness : stripPort "[abc" = "[abc" :=
  C3_stripPort_bracket.2.2.2.2.2 "[abc" (by decide) (by decide)

/-! ### Claim C4 -/

/-- On a request whose only header is `x-forwarded-for`, the precedence
loop reduces to the decision on that one extracted element. -/
theorem ipLoop_oneHeader_xff (v : String) :
    ipLoop (oneHeader "x-forwarded-for" v) IP_ADDRESS_HEADERS =
      (if v = "" then none
       else if xffFirst v = "" then none
       else if isPrivateIp (xffFirst v) = true then none
       else some (xffFirst v)) := by
  have h1 : ipLoop (oneHeader "x-forwarded-for" v) IP_ADDRESS_HEADERS =
      (if v = "" then ipLoop (oneHeader "x-forwarded-for" v) HEADERS_AFTER_XFF
       else if xffFirst v = "" then ipLoop (oneHeader "x-forwarded-for" v) HEADERS_AFTER_XFF
       else if isPrivateIp (xffFirst v) = true then
         ipLoop (oneHeader "x-forwarded-for" v) HEADERS_AFTER_XFF
       else some (xffFirst v)) := rfl
  have h2 : ipLoop (oneHeader "x-forwarded-for" v) HEADERS_AFTER_XFF = none := rfl
  rw [h1, h2]

/-- C4: `getIpAddress` inspects only the first comma-separated element of
`x-forwarded-for` and never falls through to later elements of the same
value: on a request carrying only that header, the result is determined
by `xffFirst` alone, so a private first element yields `null` even when a
public address follows it, while a public first element is returned. -/
theorem C4_xff_first_element_only :
    getIpAddress envNoOverride (oneHeader "x-forwarded-for" "10.0.0.1, 203.0.113.5") = none ∧
    getIpAddress envNoOverride (oneHeader "x-forwarded-for" "203.0.113.5, 10.0.0.1") =
      some "203.0.113.5" ∧
    (∀ v : String, getIpAddress envNoOverride (oneHeader "x-forwarded-for" v) =
      (if xffFirst v = "" ∨ isPrivateIp (xffFirst v) = true then none
       else some (xffFirst v))) := by
  refine ⟨rfl, rfl, fun v => ?_⟩
  by_cases hv : v = ""
  · subst hv; rfl
  · have hget : getIpAddress envNoOverride (oneHeader "x-forwarded-for" v) =
        ipSelect (oneHeader "x-forwarded-for" v) := rfl
    rw [hget]
    unfold ipSelect
    rw [ipLoop_oneHeader_xff v, if_neg hv]
    by_cases he : xffFirst v = ""
    · rw [if_pos he, if_pos (Or.inl he)]
    · rw [if_neg he]
      by_cases hp : isPrivateIp (xffFirst v) = true
      · rw [if_pos hp, if_pos (Or.inr hp)]
      · rw [if_neg hp, if_neg (fun hor => hor.elim he hp)]
        show (if xffFirst v = "" then none else some (xffFirst v)) = some (xffFirst v)
        rw [if_neg he]

/-! ### Claim C5 -/

/-- C5: when the configured override header is present and truthy,
`getIpAddress` returns its value with no private-address filtering; the
`x-forwarded-for` first-element extraction (with raw fallback) and the
`forwarded` `for=`-token extraction apply exactly when the override name
is one of those two headers; in particular a private `10.0.0.1` in a
custom override header is returned, while without the override the same
request yields `null`. -/
theorem C5_override_header_no_filtering :
    (∀ (name v : String) (h : HeadersT), name ≠ "" → name ≠ "x-forwarded-for" →
      name ≠ "forwarded" → h name = some v → v ≠ "" →
      getIpAddress ⟨some name⟩ h = some v) ∧
    (∀ (v : String) (h : HeadersT), h "x-forwarded-for" = some v → v ≠ "" →
      getIpAddress ⟨some "x-forwarded-for"⟩ h =
        some (if xffFirst v = "" then v else xffFirst v)) ∧
    (∀ (v : String) (h : HeadersT), h "forwarded" = some v → v ≠ "" →
      getIpAddress ⟨some "forwarded"⟩ h =
        some (match forwardedFor v with
              | some m => m
              | none => v)) ∧
    getIpAddress ⟨some "x-custom-ip"⟩ (oneHeader "x-custom-ip" "10.0.0.1") =
      some "10.0.0.1" ∧
    getIpAddress envNoOverride (oneHeader "x-custom-ip" "10.0.0.1") = none := by
  refine ⟨fun name v h hne hxff hfwd hv hvne => ?_, fun v h hv hvne => ?_,
    fun v h hv hvne => ?_, rfl, rfl⟩
  · show (if name = "" then ipSelect h
          else
            match h name with
            | some v' => if v' = "" then ipSelect h else some (customExtract name v')
            | none => ipSelect h) = some v
    rw [if_neg hne, hv]
    show (if v = "" then ipSelect h else some (customExtract name v)) = some v
    rw [if_neg hvne]
    unfold customExtract
    rw [if_neg hxff, if_neg hfwd]
  · show (match h "x-forwarded-for" with
          | some v' =>
            if v' = "" then ipSelect h else some (customExtract "x-forwarded-for" v')
          | none => ipSelect h) = some (if xffFirst v = "" then v else xffFirst v)
    rw [hv]
    show (if v = "" then ipSelect h else some (customExtract "x-forwarded-for" v)) =
      some (if xffFirst v = "" then v else xffFirst v)
    rw [if_neg hvne]
    rfl
  · show (match h "forwarded" with
          | some v' => if v' = "" then ipSelect h else some (customExtract "forwarded" v')
          | none => ipSelect h) =
        some (match forwardedFor v with
              | some m => m
              | none => v)
    rw [hv]
    show (if v = "" then ipSelect h else some (customExtract "forwarded" v)) =
      some (match forwardedFor v with
            | some m => m
            | none => v)
    rw [if_neg hvne]
    rfl

/-- Witness for C5: a private address in the override header is returned
rather than skipped. -/
theorem C5_witness :
    getIpAddress ⟨some "x-real-ip"⟩ (oneHeader "x-real-ip" "10.0.0.1") = some "10.0.0.1" :=
  C5_override_header_no_filtering.1 "x-real-ip" "10.0.0.1"
    (oneHeader "x-real-ip" "10.0.0.1") (by decide) (by decide) (by decide) rfl (by decide)

/-! ### Claim C10 -/

/-- Unfolding of `getIpAddress` under a set override. -/
theorem getIpAddress_some_eq (ch : String) (h : HeadersT) :
    getIpAddress ⟨some ch⟩ h =
      (if ch = "" then ipSelect h
       else
         match h ch with
         | some v => if v = "" then ipSelect h else some (customExtract ch v)
         | none => ipSelect h) := rfl

/-- C10: `getIpAddress` never returns the empty string — every result is
`null` or a non-empty address, for every override configuration and every
header set. -/
theorem C10_never_empty_string (env : IpEnv) (h : HeadersT) :
    getIpAddress env h = none ∨ ∃ s, getIpAddress env h = some s ∧ s ≠ "" := by
  rcases env with ⟨_ | ch⟩
  · exact ipSelect_shape h
  · rw [getIpAddress_some_eq]
    by_cases hch : ch = ""
    · rw [if_pos hch]; exact ipSelect_shape h
    · rw [if_neg hch]
      cases hv : h ch with
      | none => exact ipSelect_shape h
      | some v =>
        by_cases hve : v = ""
        · have hred : (if v = "" then ipSelect h else some (customExtract ch v)) =
              ipSelect h := if_pos hve
          show (if v = "" then ipSelect h else some (customExtract ch v)) = none ∨
            ∃ s, (if v = "" then ipSelect h else some (customExtract ch v)) = some s ∧ s ≠ ""
          rw [hred]
          exact ipSelect_shape h
        · refine Or.inr ⟨customExtract ch v, ?_, customExtract_ne_empty hve⟩
          show (if v = "" then ipSelect h else some (customExtract ch v)) =
            some (customExtract ch v)
          rw [if_neg hve]

/-! ### Claims C6 and C7 -/

/-- With a payload-supplied IP, the provider-header step contributes
nothing and `getLocation` reduces to the local check and the database
tier. -/
theorem getLocation_payload_reduce (ext : Ext) (env : GeoEnv) (st : Option DB) (ip : String)
    (h : HeadersT) :
    getLocation ext env st ip h true =
      (if ip = "" ∨ ext.isLocalhost ip = true then (none, st, noEffects)
       else dbTier ext env st ip []) := by
  unfold getLocation
  rw [show (if true = false ∧ env.skipLocationHeaders = false then
        providerLoop ext h PROVIDER_HEADERS
      else (none, [])) = ((none : Option Location), ([] : List String)) from
    if_neg (fun hc => Bool.noConfusion hc.1)]

/-- With `SKIP_LOCATION_HEADERS` set, the provider-header step contributes
nothing for either value of the payload flag. -/
theorem getLocation_skip_reduce (ext : Ext) (env : GeoEnv) (st : Option DB) (ip : String)
    (h : HeadersT) (b : Bool) (hskip : env.skipLocationHeaders = true) :
    getLocation ext env st ip h b =
      (if ip = "" ∨ ext.isLocalhost ip = true then (none, st, noEffects)
       else dbTier ext env st ip []) := by
  unfold getLocation
  rw [show (if b = false ∧ env.skipLocationHeaders = false then
        providerLoop ext h PROVIDER_HEADERS
      else (none, [])) = ((none : Option Location), ([] : List String)) from
    if_neg (fun hc => by rw [hskip] at hc; exact Bool.noConfusion hc.2)]

/-- The lookup step reports the effect record handed to it, extended only
in its lookups. -/
theorem dbQuery_headerReads (db : DB) (ip : String) (eff : GeoEffects) :
    (dbQuery db ip eff).2.2.headerReads = eff.headerReads := by
  unfold dbQuery
  cases db (stripPort ip) <;> rfl

/-- The lookup step preserves the file probes of the effect record. -/
theorem dbQuery_fsChecks (db : DB) (ip : String) (eff : GeoEffects) :
    (dbQuery db ip eff).2.2.fsChecks = eff.fsChecks := by
  unfold dbQuery
  cases db (stripPort ip) <;> rfl

/-- The database tier reads no headers: it reports exactly the header
reads handed to it. -/
theorem dbTier_headerReads (ext : Ext) (env : GeoEnv) (st : Option DB) (ip : String)
    (reads : List String) : (dbTier ext env st ip reads).2.2.headerReads = reads := by
  cases st with
  | some db => exact dbQuery_headerReads db ip ⟨reads, [], [], []⟩
  | none =>
    show (if ext.fsAccess (defaultDbPath env) = true then
        match ext.maxmindOpen (defaultDbPath env) with
        | some db => dbQuery db ip ⟨reads, [defaultDbPath env], [defaultDbPath env], []⟩
        | none =>
          ((none : Option Location), (none : Option DB),
            (⟨reads, [defaultDbPath env], [defaultDbPath env], []⟩ : GeoEffects))
      else
        ((none : Option Location), (none : Option DB),
          (⟨reads, [defaultDbPath env], [], []⟩ : GeoEffects))).2.2.headerReads = reads
    by_cases hfs : ext.fsAccess (defaultDbPath env) = true
    · rw [if_pos hfs]
      cases ext.maxmindOpen (defaultDbPath env) with
      | some db => exact dbQuery_headerReads db ip ⟨reads, [defaultDbPath env], [defaultDbPath env], []⟩
      | none => rfl
    · rw [if_neg hfs]

/-- With no handle open yet, the database tier probes exactly the resolved
database file path. -/
theorem dbTier_fsChecks_none (ext : Ext) (env : GeoEnv) (ip : String) (reads : List String) :
    (dbTier ext env none ip reads).2.2.fsChecks = [defaultDbPath env] := by
  show (if ext.fsAccess (defaultDbPath env) = true then
      match ext.maxmindOpen (defaultDbPath env) with
      | some db => dbQuery db ip ⟨reads, [defaultDbPath env], [defaultDbPath env], []⟩
      | none =>
        ((none : Option Location), (none : Option DB),
          (⟨reads, [defaultDbPath env], [defaultDbPath env], []⟩ : GeoEffects))
    else
      ((none : Option Location), (none : Option DB),
        (⟨reads, [defaultDbPath env], [], []⟩ : GeoEffects))).2.2.fsChecks = [defaultDbPath env]
  by_cases hfs : ext.fsAccess (defaultDbPath env) = true
  · rw [if_pos hfs]
    cases ext.maxmindOpen (defaultDbPath env) with
    | some db => exact dbQuery_fsChecks db ip ⟨reads, [defaultDbPath env], [defaultDbPath env], []⟩
    | none => rfl
  · rw [if_neg hfs]

/-- C6: with a payload-supplied IP, `getLocation` never consults the
provider geo headers — the result is the same for any two header sets
(in particular one with a populated `cf-ipcountry`), no header read is
performed, and the same bypass holds when `SKIP_LOCATION_HEADERS` is set;
for a non-local address with no handle open yet it proceeds to the
database tier, probing the database file. -/
theorem C6_payload_ip_bypasses_headers (ext : Ext) (env : GeoEnv) (st : Option DB)
    (ip : String) (h h2 : HeadersT) :
    getLocation ext env st ip h true = getLocation ext env st ip h2 true ∧
    (getLocation ext env st ip h true).2.2.headerReads = [] ∧
    (env.skipLocationHeaders = true → ∀ b : Bool,
      getLocation ext env st ip h b = getLocation ext env st ip h2 b ∧
      (getLocation ext env st ip h b).2.2.headerReads = []) ∧
    (ip ≠ "" → ext.isLocalhost ip = false → st = none →
      (getLocation ext env st ip h true).2.2.fsChecks = [defaultDbPath env]) := by
  have hlocal_case : ∀ hyp : ip = "" ∨ ext.isLocalhost ip = true,
      (if ip = "" ∨ ext.isLocalhost ip = true then
        ((none : Option Location), st, noEffects)
      else dbTier ext env st ip []).2.2.headerReads = [] := by
    intro hyp
    rw [if_pos hyp]
    rfl
  refine ⟨?_, ?_, fun hskip b => ⟨?_, ?_⟩, fun hip hloc hst => ?_⟩
  · rw [getLocation_payload_reduce, getLocation_payload_reduce]
  · rw [getLocation_payload_reduce]
    by_cases hyp : ip = "" ∨ ext.isLocalhost ip = true
    · exact hlocal_case hyp
    · rw [if_neg hyp]
      exact dbTier_headerReads ext env st ip []
  · rw [getLocation_skip_reduce ext env st ip h b hskip,
      getLocation_skip_reduce ext env st ip h2 b hskip]
  · rw [getLocation_skip_reduce ext env st ip h b hskip]
    by_cases hyp : ip = "" ∨ ext.isLocalhost ip = true
    · exact hlocal_case hyp
    · rw [if_neg hyp]
      exact dbTier_headerReads ext env st ip []
  · subst hst
    rw [getLocation_payload_reduce,
      if_neg (fun hc => hc.elim hip (fun hl => by rw [hloc] at hl; exact Bool.noConfusion hl))]
    exact dbTier_fsChecks_none ext env ip []

/-- Witness for C6: a public payload IP with a populated `cf-ipcountry`
header still probes the database file. -/
theorem C6_witness :
    (getLocation extNoDb envGeo none "203.0.113.5" (oneHeader "cf-ipcountry" "US")
      true).2.2.fsChecks = [defaultDbPath envGeo] :=
  (C6_payload_ip_bypasses_headers extNoDb envGeo none "203.0.113.5"
    (oneHeader "cf-ipcountry" "US") (fun _ => none)).2.2.2 (by decide) rfl rfl

/-- C7: an empty or local address short-circuits `getLocation` to `null`
with the handle state unchanged and no header read, no file probe, no
open attempt and no lookup performed. -/
theorem C7_local_short_circuit (ext : Ext) (env : GeoEnv) (st : Option DB) (ip : String)
    (h : HeadersT) (b : Bool) (hl : ip = "" ∨ ext.isLocalhost ip = true) :
    getLocation ext env st ip h b = (none, st, noEffects) := by
  unfold getLocation
  rw [if_pos hl]

/-- Witness for C7: the loopback address under concrete collaborators. -/
theorem C7_witness :
    getLocation extNoDb envGeo none "127.0.0.1" (oneHeader "cf-ipcountry" "US") false =
      (none, none, noEffects) :=
  C7_local_short_circuit extNoDb envGeo none "127.0.0.1" (oneHeader "cf-ipcountry" "US")
    false (Or.inr rfl)

end Umami
